import Mathlib

/-!
Verification of the riegeli streaming I/O core against its specification.

Shallow embedding of:
  * `src/riegeli/base/byte_fill.h` — the `ByteFill` value type and its block engine;
  * `src/riegeli/bytes/null_backward_writer.cc` — the discarding backward writer;
  * `src/riegeli/bytes/position_shifting_reader.h` — the position-shifting decorator;
  * the CRC32C masking transform from the digester header bundled with
    `null_backward_writer.cc`.

Machine integers are modelled as `Nat` with explicit truncation modulo `2 ^ w`
where the C++ code relies on fixed-width behaviour. Functions whose bodies are
not among the sources (only declarations are) are modelled from the spec and say
so in their doc comments.
-/

namespace Riegeli

/-- Maximum value of `riegeli::Position` (`uint64_t`),
`std::numeric_limits<Position>::max()`. -/
def kPositionMax : Nat := 2 ^ 64 - 1

/-! ## ByteFill (src/riegeli/base/byte_fill.h) -/

/-- `ByteFill::kBlockOfZerosSize = size_t{64} << 10` (byte_fill.h line 117): the
maximum block length of the block engine. The spec treats the exact value as a
tuning constant (spec §9). -/
def kMaxBlockLen : Nat := 64 * 1024

/-- `ByteFill` (byte_fill.h lines 44-125): `size_` occurrences of the byte
`fill_`. Bytes are modelled as `Nat` values. -/
structure ByteFill where
  size : Nat
  fill : Nat
  deriving DecidableEq

/-- The byte sequence a `ByteFill` represents. -/
def ByteFill.bytes (self : ByteFill) : List Nat :=
  List.replicate self.size self.fill

/-- `ByteFill::Extract` (byte_fill.h lines 65-70): removes `difference`
occurrences from `self` and returns the `ByteFill` for the removed fragment
together with the shrunk receiver. `RIEGELI_ASSERT_LE(difference, size_)` is a
programmer-error check; its violation is modelled as `none`. -/
def ByteFill.Extract (self : ByteFill) (difference : Nat) :
    Option (ByteFill × ByteFill) :=
  if difference ≤ self.size then
    some (⟨difference, self.fill⟩, ⟨self.size - difference, self.fill⟩)
  else
    none

/-- The storage alternative held by `ByteFill::Blocks::block_`
(byte_fill.h line 380, `absl::variant<ZeroBlock, SmallBlock, SharedBuffer>`).
All three alternatives back a buffer every byte of which equals the fill byte,
so only the tag is modelled. -/
inductive BlockStorage where
  | zeroBlock
  | smallBlock
  | sharedBuffer
  deriving DecidableEq

/-- `ByteFill::Blocks` (byte_fill.h lines 303-381): the fields `num_blocks_`,
`non_last_block_size_`, `last_block_size_` and the storage variant `block_`.
`data_` always points at a buffer of bytes all equal to the fill byte, which is
carried as `fill`. -/
structure Blocks where
  num_blocks : Nat
  non_last_block_size : Nat
  last_block_size : Nat
  storage : BlockStorage
  fill : Nat
  deriving DecidableEq

/-- Ceiling division on naturals, `ceil(a / b)`. -/
def ceilDiv (a b : Nat) : Nat :=
  a / b + (if a % b = 0 then 0 else 1)

/-- Modelled from the spec: the body of
`ByteFill::Blocks::Blocks(Position size, char fill)` lives in byte_fill.cc,
which is not among the sources; only its declaration (byte_fill.h line 360) is.
Spec §4.4: "Block count = `ceil(size / max_block_len)`; all but the last block
have length `max_block_len`; the last has the remainder (or `max_block_len` if
evenly divisible); size 0 yields an empty sequence", and storage is chosen once
per `ByteFill`: zero fill → shared static zero buffer, size small enough for
one inline block (`SmallBlock::kSize = 64`, byte_fill.h line 167) → inline
buffer, otherwise → one reference-counted heap buffer. An empty variant
defaults to `ZeroBlock`, its first alternative. -/
def Blocks.make (size : Nat) (fill : Nat) : Blocks :=
  if size = 0 then
    { num_blocks := 0
      non_last_block_size := 0
      last_block_size := 0
      storage := .zeroBlock
      fill := fill }
  else
    { num_blocks := ceilDiv size kMaxBlockLen
      non_last_block_size := kMaxBlockLen
      last_block_size :=
        if size % kMaxBlockLen = 0 then kMaxBlockLen else size % kMaxBlockLen
      storage :=
        if fill = 0 then .zeroBlock
        else if size ≤ 64 then .smallBlock
        else .sharedBuffer
      fill := fill }

/-- `ByteFill::blocks()` (byte_fill.h lines 520-522): `Blocks(size_, fill_)`. -/
def ByteFill.blocks (self : ByteFill) : Blocks :=
  Blocks.make self.size self.fill

/-- `ByteFill::Blocks::size(Position block_index_complement)`
(byte_fill.h lines 363-366). -/
def Blocks.sizeOfComplement (self : Blocks) (block_index_complement : Nat) :
    Nat :=
  if block_index_complement = 1 then self.last_block_size
  else self.non_last_block_size

/-- `ByteFill::BlockRef` (byte_fill.h lines 186-227): the owning `Blocks`
together with `block_index_complement_ = num_blocks_ - block_index`. -/
structure BlockRef where
  blocks : Blocks
  block_index_complement : Nat
  deriving DecidableEq

/-- `ByteFill::BlockRef::size()` (byte_fill.h lines 387-389). -/
def BlockRef.size (self : BlockRef) : Nat :=
  self.blocks.sizeOfComplement self.block_index_complement

/-- The bytes a block views: `absl::string_view(data(), size())`
(byte_fill.h lines 191-193), where `data_` points at a buffer filled with the
fill byte. -/
def BlockRef.bytes (self : BlockRef) : List Nat :=
  List.replicate self.size self.blocks.fill

/-- `ByteFill::Blocks::operator[]` (byte_fill.h lines 333-338):
`BlockRef(this, num_blocks_ - n)` with the precondition `n < size()`
(`RIEGELI_ASSERT_LT`) modelled as `none`. -/
def Blocks.get (self : Blocks) (n : Nat) : Option BlockRef :=
  if n < self.num_blocks then some ⟨self, self.num_blocks - n⟩ else none

/-- Concatenation of the blocks with complements `c, c-1, ..., 1`, the
iteration order of `Blocks`: `begin()` carries complement `num_blocks_`,
`operator++` decrements it, `end()` carries 0 (byte_fill.h lines 320-322 and
411-417). -/
def Blocks.concatFrom (self : Blocks) : Nat → List Nat
  | 0 => []
  | c + 1 => (BlockRef.mk self (c + 1)).bytes ++ self.concatFrom c

/-- Concatenation of all blocks in order. -/
def Blocks.concat (self : Blocks) : List Nat :=
  self.concatFrom self.num_blocks

/-- `ByteFill::Blocks::Blocks(Blocks&& that)` (byte_fill.h lines 486-497). The
member initializer list reads `num_blocks_` (exchanging the source's to 0),
`last_block_size_`, `data_` and `block_`, then re-points `data_` at the inline
buffer when the variant holds `SmallBlock`. `non_last_block_size_` is absent
from the list, so the constructed object keeps that member's default
initializer `0` (byte_fill.h line 373). Returns the new object together with
the moved-from object. -/
def Blocks.moveConstruct (that : Blocks) : Blocks × Blocks :=
  ({ num_blocks := that.num_blocks
     non_last_block_size := 0
     last_block_size := that.last_block_size
     storage := that.storage
     fill := that.fill },
   { that with num_blocks := 0 })

/-- `AbslStringify(Sink&, const ByteFill&)` (byte_fill.h lines 97-105): the
sequence of chunk lengths passed to `sink.Append(len, fill)`. `smax` is
`std::numeric_limits<size_t>::max()`; the loop emits `smax`-sized chunks while
`length > smax`, then the remainder if positive. The `smax = 0` branch is
vacuous (`size_t` has at least 16 bits) and only serves termination. -/
def stringifyChunkLens (smax : Nat) (length : Nat) : List Nat :=
  if _h : smax = 0 then []
  else if _hl : smax < length then
    smax :: stringifyChunkLens smax (length - smax)
  else if 0 < length then [length] else []
  termination_by length
  decreasing_by omega

/-- The bytes emitted by `AbslStringify` for a `ByteFill`, as the
concatenation of its chunks. -/
def stringifyBytes (smax : Nat) (self : ByteFill) : List Nat :=
  ((stringifyChunkLens smax self.size).map
    (fun c => List.replicate c self.fill)).flatten

/-! ## CRC32C masking (crc32c_digester.h, bundled with
src/riegeli/bytes/null_backward_writer.cc, lines 187-201) -/

/-- The default `delta` template argument of `MaskCrc32c`/`UnmaskCrc32c`. -/
def kCrcMaskDelta : Nat := 0xa282ead8

/-- The default `ror_bits` template argument of `MaskCrc32c`/`UnmaskCrc32c`. -/
def kCrcRorBits : Nat := 15

/-- `MaskCrc32c` (lines 190-195): on `uint32_t`,
`rotated = (unmasked << (32 - ror_bits)) | (unmasked >> ror_bits)`, then
`rotated + delta`; the shift-left and the addition truncate modulo `2 ^ 32`.
The C++ local `rotated` is inlined. -/
def MaskCrc32c (unmasked : Nat) : Nat :=
  ((((unmasked <<< (32 - kCrcRorBits)) % 2 ^ 32) ||| (unmasked >>> kCrcRorBits))
    + kCrcMaskDelta) % 2 ^ 32

/-- `UnmaskCrc32c` (lines 197-201): on `uint32_t`, `rotated = masked - delta`
(wrapping subtraction, modelled as `(masked + 2^32 - delta) % 2^32` for
`masked < 2^32`), then `(rotated << ror_bits) | (rotated >> (32 - ror_bits))`
with the shift-left truncating modulo `2 ^ 32`. The C++ local `rotated` is
inlined. -/
def UnmaskCrc32c (masked : Nat) : Nat :=
  ((((masked + 2 ^ 32 - kCrcMaskDelta) % 2 ^ 32) <<< kCrcRorBits) % 2 ^ 32)
    ||| (((masked + 2 ^ 32 - kCrcMaskDelta) % 2 ^ 32) >>> (32 - kCrcRorBits))

/-! ## NullBackwardWriter (src/riegeli/bytes/null_backward_writer.cc) -/

/-- The status carried by a writer (`Object::status()`). The null backward
writer itself fails only through `FailOverflow()`; `otherFailure` stands for
any other failed status the object may carry. -/
inductive WriterStatus where
  | ok
  | overflow
  | otherFailure (code : Nat)
  deriving DecidableEq

/-- State of a `NullBackwardWriter`. A backward writer's buffer window runs
from `limit()` up to `start()` and is written from `start()` downwards:
`written_to_buffer() = start() - cursor()`, `available() = cursor() - limit()`,
`pos() = start_pos() + written_to_buffer()` (buffered-stream contract, spec
§4.1 and §3). The window is modelled by its length `buffer_size` and the
number of bytes written into it. -/
structure NullBackwardWriter where
  status : WriterStatus
  start_pos : Nat
  buffer_size : Nat
  written : Nat
  deriving DecidableEq

/-- `pos()`: `start_pos() + written_to_buffer()`. -/
def NullBackwardWriter.pos (self : NullBackwardWriter) : Nat :=
  self.start_pos + self.written

/-- `available()`: `cursor() - limit()`. -/
def NullBackwardWriter.available (self : NullBackwardWriter) : Nat :=
  self.buffer_size - self.written

/-- `NullBackwardWriter::SyncBuffer` (null_backward_writer.cc lines 35-38):
`set_start_pos(pos()); set_cursor(start());`. -/
def NullBackwardWriter.syncBuffer (self : NullBackwardWriter) :
    NullBackwardWriter :=
  { self with start_pos := self.pos, written := 0 }

/-- Modelled from the spec: `buffer_sizer_.BufferLength(...)` is declared in
buffer_options.h, which is not among the sources. Spec §4.3: the scratch
buffer's length follows a buffer-growth heuristic fed by write-size hints; the
only contract the code relies on is that the result is at least `min_length`.
A 64 KiB base length stands in for the heuristic. -/
def BufferLength (min_length recommended_length : Nat) : Nat :=
  max min_length (max recommended_length (64 * 1024))

/-- `NullBackwardWriter::MakeBuffer` (null_backward_writer.cc lines 40-54):
fails with `FailOverflow()` when `min_length >
std::numeric_limits<Position>::max() - pos()`; otherwise resets the scratch
buffer to `buffer_length` bytes (`Buffer::Reset` guarantees at least the
requested capacity; the model takes it as exact) and exposes
`min(capacity, buffer_length + buffer_length, max - start_pos())` of it,
with nothing written yet. -/
def NullBackwardWriter.makeBuffer (self : NullBackwardWriter)
    (min_length recommended_length : Nat) : Bool × NullBackwardWriter :=
  if kPositionMax - self.pos < min_length then
    (false, { self with status := .overflow })
  else
    let buffer_length := BufferLength min_length recommended_length
    (true,
     { self with
       buffer_size :=
         min buffer_length
           (min (buffer_length + buffer_length)
             (kPositionMax - self.start_pos))
       written := 0 })

/-- `NullBackwardWriter::PushSlow` (null_backward_writer.cc lines 61-69). The
`RIEGELI_ASSERT_LT(available(), min_length)` slow-path dispatch precondition
does not affect the body. -/
def NullBackwardWriter.pushSlow (self : NullBackwardWriter)
    (min_length recommended_length : Nat) : Bool × NullBackwardWriter :=
  if self.status ≠ .ok then (false, self)
  else self.syncBuffer.makeBuffer min_length recommended_length

/-- `NullBackwardWriter::WriteSlow(const Chain&)` (null_backward_writer.cc
lines 71-83); `WriteSlow(const absl::Cord&)` (lines 85-97) has the identical
body. Only `src.size()` is observable, passed as `srcSize`. -/
def NullBackwardWriter.writeSlow (self : NullBackwardWriter) (srcSize : Nat) :
    Bool × NullBackwardWriter :=
  if self.status ≠ .ok then (false, self)
  else if kPositionMax - self.pos < srcSize then
    (false, { self with status := .overflow })
  else
    let s := self.syncBuffer
    let s := { s with start_pos := s.start_pos + srcSize }
    s.makeBuffer 0 0

/-- `NullBackwardWriter::WriteZerosSlow` (null_backward_writer.cc lines
99-111): after the failure and overflow checks, `SyncBuffer();
move_start_pos(length); return MakeBuffer();`. -/
def NullBackwardWriter.writeZerosSlow (self : NullBackwardWriter)
    (length : Nat) : Bool × NullBackwardWriter :=
  if self.status ≠ .ok then (false, self)
  else if kPositionMax - self.pos < length then
    (false, { self with status := .overflow })
  else
    let s := self.syncBuffer
    let s := { s with start_pos := s.start_pos + length }
    s.makeBuffer 0 0

/-- `NullBackwardWriter::TruncateImpl` (null_backward_writer.cc lines
113-125). `buffer_sizer_.EndRun`/`BeginRun` touch only the growth heuristic's
hidden state, which no claim observes. -/
def NullBackwardWriter.truncateImpl (self : NullBackwardWriter)
    (new_size : Nat) : Bool × NullBackwardWriter :=
  if self.status ≠ .ok then (false, self)
  else if self.start_pos ≤ new_size then
    if self.pos < new_size then (false, self)
    else (true, { self with written := new_size - self.start_pos })
  else
    (true, { self with start_pos := new_size, written := 0 })

/-- Iterated `WriteZerosSlow`, stopping at the first failure: a sequence of
writes against the discarding sink. -/
def NullBackwardWriter.writeZerosSeq (self : NullBackwardWriter) :
    List Nat → Bool × NullBackwardWriter
  | [] => (true, self)
  | l :: ls =>
    let r := self.writeZerosSlow l
    if r.1 then r.2.writeZerosSeq ls else (false, r.2)

/-! ## PositionShiftingReader (src/riegeli/bytes/position_shifting_reader.h) -/

/-- The status carried by the decorator: `overflow` after `FailOverflow()`,
`fromSrc` after `FailWithoutAnnotation(AnnotateOverSrc(src.status()))`. -/
inductive ReaderStatus where
  | ok
  | overflow
  | fromSrc
  deriving DecidableEq

/-- Modelled from the spec: a minimal inner `Reader` over in-memory content
(reader.h is not among the sources). Spec §4.1 and §3: a buffer window over the
content with absolute positions; `size` is the total content length,
`cursor_pos`/`limit_pos` the absolute positions of the window's cursor and
limit, `isOk` the persistent status. -/
structure InnerReader where
  size : Nat
  cursor_pos : Nat
  limit_pos : Nat
  isOk : Bool
  deriving DecidableEq

/-- `available()` of the inner reader: `limit() - cursor()`. -/
def InnerReader.available (self : InnerReader) : Nat :=
  self.limit_pos - self.cursor_pos

/-- Modelled from the spec: `Reader::Seek` for a random-access in-memory
reader (spec §4.1): repositions the window at `new_pos` when reachable
(`new_pos ≤ size`, with an empty buffer to be refilled by the next pull),
otherwise fails the attempt leaving the reader unchanged. -/
def InnerReader.seek (self : InnerReader) (new_pos : Nat) :
    Bool × InnerReader :=
  if new_pos ≤ self.size then
    (true, { self with cursor_pos := new_pos, limit_pos := new_pos })
  else
    (false, self)

/-- Modelled from the spec: `Reader::Sync` for an in-memory reader (spec
§4.1): nothing is buffered-but-unflushed, so it reports the reader's own
health and changes nothing. -/
def InnerReader.sync (self : InnerReader) : Bool × InnerReader :=
  (self.isOk, self)

/-- `Writer::SyncType` (types.h): which lifecycle requested the sync. -/
inductive SyncType where
  | fromObject
  | fromScope
  | fromProcess
  deriving DecidableEq

/-- State of `PositionShiftingReaderBase` (position_shifting_reader.h lines
45-133). The decorator shares the inner reader's buffer; its `start()`,
`cursor()` and `limit()` point into the same memory, so the window is modelled
by the inner-coordinate positions `cursor_ipos` and `limit_ipos` of the
decorator's cursor and limit. `limit_pos` is the decorator's own
`Reader::limit_pos()`, and `pos() = limit_pos() - available()`. -/
structure PSReader where
  base_pos : Nat
  limit_pos : Nat
  cursor_ipos : Nat
  limit_ipos : Nat
  status : ReaderStatus
  deriving DecidableEq

/-- The decorator's `available()`. -/
def PSReader.available (self : PSReader) : Nat :=
  self.limit_ipos - self.cursor_ipos

/-- The decorator's `pos()`: `limit_pos() - available()`. -/
def PSReader.pos (self : PSReader) : Nat :=
  self.limit_pos - self.available

/-- `PositionShiftingReaderBase::SyncBuffer` (position_shifting_reader.h lines
261-263): `src.set_cursor(cursor())`. -/
def PSReader.syncBuffer (self : PSReader) (src : InnerReader) : InnerReader :=
  { src with cursor_pos := self.cursor_ipos }

/-- `PositionShiftingReaderBase::MakeBuffer` (position_shifting_reader.h lines
265-276): fails with `FailOverflow()` when `src.limit_pos() >
std::numeric_limits<Position>::max() - base_pos_` and leaves the rest of the
state untouched; otherwise adopts `src`'s buffer
(`set_buffer(src.cursor(), src.available())`), sets
`limit_pos = src.limit_pos() + base_pos_`, and fails with `src`'s annotated
status when `src` is unhealthy. -/
def PSReader.makeBuffer (self : PSReader) (src : InnerReader) : PSReader :=
  if kPositionMax - self.base_pos < src.limit_pos then
    { self with status := .overflow }
  else
    let d := { self with
               cursor_ipos := src.cursor_pos
               limit_ipos := src.limit_pos
               limit_pos := src.limit_pos + self.base_pos }
    if !src.isOk then { d with status := .fromSrc } else d

/-- `PositionShiftingReader::SyncImpl` (position_shifting_reader.h lines
392-402): when failed, a no-op returning `false`; otherwise synchronizes the
shared buffer's cursor into `src`, syncs `src` unless the sync was requested
by the object's own lifecycle over a borrowed dependency, and refills the
buffer. `owning` is `src_.is_owning()`. -/
def PSReader.syncImpl (self : PSReader) (src : InnerReader)
    (sync_type : SyncType) (owning : Bool) : Bool × PSReader × InnerReader :=
  if self.status ≠ .ok then (false, self, src)
  else
    let src := self.syncBuffer src
    let r :=
      if sync_type ≠ .fromObject || owning then src.sync else (true, src)
    let d := self.makeBuffer r.2
    (r.1, d, r.2)

/-- Modelled from the spec: `PositionShiftingReaderBase::SeekSlow` is defined
in position_shifting_reader.cc, which is not among the sources; only its
declaration (position_shifting_reader.h line 116) and that of `FailUnderflow`
(line 121) are. Spec §4.2 and §7: `Seek(p)` fails with a distinct underflow
condition when `p < base_pos` without touching the inner reader, fatally to
that seek attempt only (the stream stays usable); otherwise it translates to
`inner.Seek(p - base_pos)`, synchronizing the shared buffer before the inner
seek and refilling it afterwards. -/
def PSReader.seekSlow (self : PSReader) (src : InnerReader) (new_pos : Nat) :
    Bool × PSReader × InnerReader :=
  if self.status ≠ .ok then (false, self, src)
  else if new_pos < self.base_pos then (false, self, src)
  else
    let src := self.syncBuffer src
    let r := src.seek (new_pos - self.base_pos)
    let d := self.makeBuffer r.2
    (r.1 && decide (d.status = .ok), d, r.2)

/-! ## Helper lemmas -/

/-- Bitwise or of a multiple of `2 ^ k` with a value below `2 ^ k` is their
sum: the operands occupy disjoint bit ranges. -/
theorem lor_two_pow_mul_add {k a b : Nat} (hb : b < 2 ^ k) :
    (2 ^ k * a) ||| b = 2 ^ k * a + b := by
  apply Nat.eq_of_testBit_eq
  intro j
  rw [Nat.testBit_lor, Nat.testBit_mul_pow_two_add a hb j,
    Nat.testBit_mul_pow_two]
  by_cases hj : j < k
  · have hjk : ¬ j ≥ k := by omega
    simp [hj, hjk]
  · have hjk : j ≥ k := by omega
    have hbj : b.testBit j = false :=
      Nat.testBit_lt_two_pow
        (lt_of_lt_of_le hb (Nat.pow_le_pow_right (by norm_num) hjk))
    simp [hj, hjk, hbj]

/-- A 32-bit rotation expressed through division and remainder: for
`x < 2 ^ 32` and `a + b = 32`, shifting left by `b` (truncated to 32 bits)
or-ed with shifting right by `a` moves the low `a` bits to the top. -/
theorem rotr_eq (x a b : Nat) (hx : x < 2 ^ 32) (hab : a + b = 32) :
    ((x <<< b) % 2 ^ 32) ||| (x >>> a) = 2 ^ b * (x % 2 ^ a) + x / 2 ^ a := by
  have h3 : (2 : Nat) ^ 32 = 2 ^ a * 2 ^ b := by
    rw [← pow_add, hab]
  have h5 : x / 2 ^ a < 2 ^ b := Nat.div_lt_of_lt_mul (h3 ▸ hx)
  rw [Nat.shiftLeft_eq, Nat.shiftRight_eq_div_pow, h3,
    Nat.mul_mod_mul_right, Nat.mul_comm (x % 2 ^ a) (2 ^ b)]
  exact lor_two_pow_mul_add h5

/-- Concatenating equal-byte runs of the given lengths yields the equal-byte
run of the total length. -/
theorem flatten_map_replicate (f : Nat) (L : List Nat) :
    (L.map (fun c => List.replicate c f)).flatten = List.replicate L.sum f := by
  induction L with
  | nil => rfl
  | cons c cs ih =>
    simp only [List.map_cons, List.flatten_cons, List.sum_cons,
      List.replicate_add, ih]

/-! ## Claim theorems -/

/-- C6: for every 32-bit value `x`, `UnmaskCrc32c (MaskCrc32c x) = x`:
masking rotates right by 15 and adds `0xa282ead8` modulo `2 ^ 32`, and
unmasking is its exact inverse. -/
theorem C6_crc_mask_roundtrip (x : Nat) (hx : x < 2 ^ 32) :
    UnmaskCrc32c (MaskCrc32c x) = x := by
  unfold MaskCrc32c UnmaskCrc32c kCrcMaskDelta kCrcRorBits
  rw [rotr_eq x 15 (32 - 15) hx (by norm_num)]
  have hR : 2 ^ (32 - 15) * (x % 2 ^ 15) + x / 2 ^ 15 < 2 ^ 32 := by
    have h1 : x % 2 ^ 15 < 2 ^ 15 := Nat.mod_lt x (by norm_num)
    have h2 : x / 2 ^ 15 < 2 ^ 17 :=
      Nat.div_lt_of_lt_mul (by norm_num at hx ⊢; omega)
    norm_num at h1 h2 ⊢
    omega
  have hVR : ((2 ^ (32 - 15) * (x % 2 ^ 15) + x / 2 ^ 15 + 2726488792) % 2 ^ 32
        + 2 ^ 32 - 2726488792) % 2 ^ 32
      = 2 ^ (32 - 15) * (x % 2 ^ 15) + x / 2 ^ 15 := by
    generalize 2 ^ (32 - 15) * (x % 2 ^ 15) + x / 2 ^ 15 = R at hR ⊢
    norm_num at hR ⊢
    omega
  rw [hVR, rotr_eq _ (32 - 15) 15 hR (by norm_num)]
  norm_num
  omega

/-- Witness for C6 at the concrete input `0xdeadbeef`. -/
theorem C6_crc_mask_roundtrip_witness :
    UnmaskCrc32c (MaskCrc32c 0xdeadbeef) = 0xdeadbeef :=
  C6_crc_mask_roundtrip 0xdeadbeef (by norm_num)

/-- The concatenation of the blocks with complements `c, ..., 1` is the run of
`(c - 1) * non_last_block_size + last_block_size` fill bytes (empty for
`c = 0`). -/
theorem Blocks.concatFrom_eq (B : Blocks) (c : Nat) :
    B.concatFrom c =
      List.replicate
        ((c - 1) * B.non_last_block_size +
          (if c = 0 then 0 else B.last_block_size)) B.fill := by
  induction c with
  | zero => simp [Blocks.concatFrom]
  | succ k ih =>
    rw [Blocks.concatFrom, ih]
    cases k with
    | zero =>
      simp [BlockRef.bytes, BlockRef.size, Blocks.sizeOfComplement]
    | succ m =>
      have hc : m + 1 + 1 ≠ 1 := by omega
      simp only [BlockRef.bytes, BlockRef.size, Blocks.sizeOfComplement, hc,
        if_false, if_neg (by omega : ¬ m + 1 + 1 = 0),
        if_neg (by omega : ¬ m + 1 = 0), ← List.replicate_add,
        Nat.add_sub_cancel]
      congr 1
      ring

/-- For a positive size, the non-last blocks and the last block of
`Blocks.make` account for exactly `S` bytes. -/
theorem blocks_size_sum (S : Nat) (hS : 0 < S) :
    (ceilDiv S kMaxBlockLen - 1) * kMaxBlockLen +
      (if S % kMaxBlockLen = 0 then kMaxBlockLen else S % kMaxBlockLen) = S := by
  unfold ceilDiv kMaxBlockLen
  split <;> omega

/-- `Blocks::operator[]` then `BlockRef::size()`: for an in-range index the
reported length is `size(num_blocks_ - n)`. -/
theorem Blocks.get_size (B : Blocks) (n : Nat) (h : n < B.num_blocks) :
    (B.get n).map BlockRef.size
      = some (B.sizeOfComplement (B.num_blocks - n)) := by
  rw [Blocks.get, if_pos h]
  rfl

/-- C1: for every `ByteFill` with size `S` and fill byte `f`, `blocks()`
yields exactly `ceil(S / max_block_len)` blocks (zero blocks when `S = 0`);
concatenating the blocks in order yields exactly `S` bytes, all equal to `f`;
every block but the last has length `max_block_len`, and the last has the
remainder (or `max_block_len` when `S` is evenly divisible). -/
theorem C1_blocks_cover_fill (S f : Nat) :
    (ByteFill.mk S f).blocks.num_blocks = ceilDiv S kMaxBlockLen
    ∧ (S = 0 → (ByteFill.mk S f).blocks.num_blocks = 0)
    ∧ (ByteFill.mk S f).blocks.concat = List.replicate S f
    ∧ (∀ n, n + 1 < (ByteFill.mk S f).blocks.num_blocks →
        ((ByteFill.mk S f).blocks.get n).map BlockRef.size = some kMaxBlockLen)
    ∧ (0 < (ByteFill.mk S f).blocks.num_blocks →
        ((ByteFill.mk S f).blocks.get
            ((ByteFill.mk S f).blocks.num_blocks - 1)).map BlockRef.size =
          some (if S % kMaxBlockLen = 0 then kMaxBlockLen
            else S % kMaxBlockLen)) := by
  by_cases hS : S = 0
  · subst hS
    refine ⟨rfl, fun _ => rfl, rfl, ?_, ?_⟩
    · intro n h
      simp [ByteFill.blocks, Blocks.make] at h
    · intro h
      simp [ByteFill.blocks, Blocks.make] at h
  · have hS' : 0 < S := Nat.pos_of_ne_zero hS
    have hmk : (ByteFill.mk S f).blocks = Blocks.make S f := rfl
    have hfields : (Blocks.make S f).num_blocks = ceilDiv S kMaxBlockLen
        ∧ (Blocks.make S f).non_last_block_size = kMaxBlockLen
        ∧ (Blocks.make S f).last_block_size =
            (if S % kMaxBlockLen = 0 then kMaxBlockLen else S % kMaxBlockLen)
        ∧ (Blocks.make S f).fill = f := by
      rw [Blocks.make, if_neg hS]
      exact ⟨rfl, rfl, rfl, rfl⟩
    obtain ⟨hnum, hnl, hlast, hfill⟩ := hfields
    have hnumpos : 0 < ceilDiv S kMaxBlockLen := by
      unfold ceilDiv kMaxBlockLen
      split <;> omega
    refine ⟨hmk ▸ hnum, fun h => absurd h hS, ?_, ?_, ?_⟩
    · rw [hmk, Blocks.concat, Blocks.concatFrom_eq, hnum, hnl, hlast, hfill,
        if_neg (by omega : ¬ ceilDiv S kMaxBlockLen = 0)]
      rw [blocks_size_sum S hS']
    · intro n hn
      rw [hmk] at hn ⊢
      rw [Blocks.get_size _ _ (by omega), Blocks.sizeOfComplement,
        if_neg (by omega), hnl]
    · intro hpos
      rw [hmk] at hpos ⊢
      rw [Blocks.get_size _ _ (by omega), Blocks.sizeOfComplement,
        if_pos (by omega), hlast]

/-- Witness for C1 at `S = 200000`, `f = 0`: four blocks; block 0 has the
maximum block length and block 3, the last, has the remainder 3392. -/
theorem C1_blocks_cover_fill_witness :
    ((ByteFill.mk 200000 0).blocks.get 0).map BlockRef.size = some kMaxBlockLen
    ∧ ((ByteFill.mk 200000 0).blocks.get
        ((ByteFill.mk 200000 0).blocks.num_blocks - 1)).map BlockRef.size =
      some (if 200000 % kMaxBlockLen = 0 then kMaxBlockLen
        else 200000 % kMaxBlockLen) :=
  ⟨(C1_blocks_cover_fill 200000 0).2.2.2.1 0 (by decide),
   (C1_blocks_cover_fill 200000 0).2.2.2.2 (by decide)⟩

/-- C4: `Extract k` on a `ByteFill` of size `S ≥ k` returns a new `ByteFill`
of size `k` with the same fill and shrinks the receiver to size `S - k`, so
the extracted prefix concatenated with the remainder is the original byte
sequence; `k > S` violates the precondition (the programmer-error check
`RIEGELI_ASSERT_LE`), modelled as `none`. -/
theorem C4_extract_splits (b : ByteFill) (k : Nat) :
    (k ≤ b.size →
      b.Extract k = some (ByteFill.mk k b.fill, ByteFill.mk (b.size - k) b.fill)
      ∧ (ByteFill.mk k b.fill).bytes ++ (ByteFill.mk (b.size - k) b.fill).bytes
          = b.bytes)
    ∧ (b.size < k → b.Extract k = none) := by
  constructor
  · intro hk
    refine ⟨by rw [ByteFill.Extract, if_pos hk], ?_⟩
    show List.replicate k b.fill ++ List.replicate (b.size - k) b.fill
      = List.replicate b.size b.fill
    rw [← List.replicate_add]
    congr 1
    omega
  · intro hk
    rw [ByteFill.Extract, if_neg (by omega)]

/-- Witness for C4 at size 10, fill 120, `k = 4`. -/
theorem C4_extract_splits_witness :
    (ByteFill.mk 10 120).Extract 4
        = some (ByteFill.mk 4 120, ByteFill.mk (10 - 4) 120)
    ∧ (ByteFill.mk 4 120).bytes ++ (ByteFill.mk (10 - 4) 120).bytes
        = (ByteFill.mk 10 120).bytes :=
  (C4_extract_splits (ByteFill.mk 10 120) 4).1 (by decide)

/-- C5 fails on the code: the move constructor of `ByteFill::Blocks` omits
`non_last_block_size_` from its member initializer list, so the moved-to
object reports size 0 for every block but the last. At the failing input — the
two-block sequence of `ByteFill(131072, 0)` — the original reports
`kMaxBlockLen` for block 0 but the move-constructed copy reports 0. -/
theorem C5_move_drops_non_last_block_size :
    0 + 1 < (ByteFill.mk 131072 0).blocks.num_blocks
    ∧ ((ByteFill.mk 131072 0).blocks.get 0).map BlockRef.size
        = some kMaxBlockLen
    ∧ ((ByteFill.mk 131072 0).blocks.moveConstruct.1.get 0).map BlockRef.size
        = some 0 := by
  decide

/-- The chunk lengths emitted by `AbslStringify` sum to the total length. -/
theorem stringifyChunkLens_sum (smax : Nat) (hs : 0 < smax) :
    ∀ length, (stringifyChunkLens smax length).sum = length := by
  intro length
  induction length using Nat.strong_induction_on with
  | _ length ih =>
    rw [stringifyChunkLens]
    rw [dif_neg (by omega)]
    by_cases hl : smax < length
    · rw [dif_pos hl, List.sum_cons, ih (length - smax) (by omega)]
      omega
    · rw [dif_neg hl]
      by_cases h0 : 0 < length
      · rw [if_pos h0]
        simp
      · rw [if_neg h0]
        simp
        omega

/-- Every chunk emitted by `AbslStringify` is non-empty and no longer than
the largest representable chunk. -/
theorem stringifyChunkLens_bounds (smax : Nat) (hs : 0 < smax) :
    ∀ length, ∀ c ∈ stringifyChunkLens smax length, 0 < c ∧ c ≤ smax := by
  intro length
  induction length using Nat.strong_induction_on with
  | _ length ih =>
    intro c hc
    rw [stringifyChunkLens, dif_neg (by omega)] at hc
    by_cases hl : smax < length
    · rw [dif_pos hl] at hc
      rcases List.mem_cons.mp hc with h | h
      · omega
      · exact ih (length - smax) (by omega) c h
    · rw [dif_neg hl] at hc
      by_cases h0 : 0 < length
      · rw [if_pos h0] at hc
        have := List.mem_singleton.mp hc
        omega
      · rw [if_neg h0] at hc
        exact absurd hc (List.not_mem_nil c)

/-- C9: text output via `AbslStringify` emits exactly `size` bytes, all equal
to the fill byte, even when `size` exceeds the largest chunk length `smax`
representable in `size_t`: it loops, emitting chunks of at most `smax` bytes,
and emits nothing when `size = 0`. -/
theorem C9_stringify_exact (smax : Nat) (b : ByteFill) (hs : 0 < smax) :
    stringifyBytes smax b = b.bytes
    ∧ (∀ c ∈ stringifyChunkLens smax b.size, 0 < c ∧ c ≤ smax)
    ∧ (b.size = 0 → stringifyChunkLens smax b.size = []) := by
  refine ⟨?_, stringifyChunkLens_bounds smax hs b.size, ?_⟩
  · rw [stringifyBytes, flatten_map_replicate,
      stringifyChunkLens_sum smax hs b.size]
    rfl
  · intro h0
    rw [h0, stringifyChunkLens]
    rw [dif_neg (by omega), dif_neg (by omega), if_neg (by omega)]

/-- Witness for C9 with chunk capacity 3 and size 7 (three chunks: 3, 3, 1). -/
theorem C9_stringify_exact_witness :
    stringifyBytes 3 (ByteFill.mk 7 9) = (ByteFill.mk 7 9).bytes
    ∧ (∀ c ∈ stringifyChunkLens 3 (ByteFill.mk 7 9).size, 0 < c ∧ c ≤ 3)
    ∧ ((ByteFill.mk 7 9).size = 0 → stringifyChunkLens 3 (ByteFill.mk 7 9).size = []) :=
  C9_stringify_exact 3 (ByteFill.mk 7 9) (by decide)

/-- A successful `WriteZerosSlow` on a healthy writer: when the requested
length fits below the maximal position, it succeeds, stays healthy, and
advances `pos()` by exactly the length. -/
theorem writeZerosSlow_ok (s : NullBackwardWriter) (l : Nat)
    (hok : s.status = .ok) (hl : l ≤ kPositionMax - s.pos) :
    (s.writeZerosSlow l).1 = true
    ∧ (s.writeZerosSlow l).2.status = .ok
    ∧ (s.writeZerosSlow l).2.pos = s.pos + l := by
  rw [NullBackwardWriter.writeZerosSlow, if_neg (by simp [hok]),
    if_neg (by omega)]
  simp only [NullBackwardWriter.makeBuffer, NullBackwardWriter.syncBuffer,
    NullBackwardWriter.pos]
  rw [if_neg (by omega)]
  refine ⟨rfl, hok, ?_⟩
  simp [NullBackwardWriter.pos]

/-- C7: on a healthy `NullBackwardWriter`, any sequence of writes totalling
`S ≤ max position − pos()` succeeds and advances the position by exactly `S`;
a single write or push fails — with overflow, the only failure mode —
precisely when the requested length exceeds `max position − pos()`; and
truncating to any `new_size ≤ pos()` succeeds and leaves `pos() = new_size`. -/
theorem C7_null_writer_accounting (s : NullBackwardWriter)
    (hok : s.status = .ok) :
    (∀ L : List Nat, L.sum ≤ kPositionMax - s.pos →
      (s.writeZerosSeq L).1 = true
      ∧ (s.writeZerosSeq L).2.status = .ok
      ∧ (s.writeZerosSeq L).2.pos = s.pos + L.sum)
    ∧ (∀ l, kPositionMax - s.pos < l →
      s.writeZerosSlow l = (false, { s with status := .overflow }))
    ∧ (∀ m r, (s.pushSlow m r).1 = false ↔ kPositionMax - s.pos < m)
    ∧ (∀ m r, kPositionMax - s.pos < m →
      (s.pushSlow m r).2 = { s.syncBuffer with status := .overflow })
    ∧ (∀ n, n ≤ s.pos →
      (s.truncateImpl n).1 = true ∧ (s.truncateImpl n).2.pos = n) := by
  refine ⟨?_, ?_, ?_, ?_, ?_⟩
  · intro L
    induction L generalizing s with
    | nil =>
      intro _
      exact ⟨rfl, hok, by simp [NullBackwardWriter.writeZerosSeq]⟩
    | cons l ls ih =>
      intro hsum
      rw [List.sum_cons] at hsum
      obtain ⟨h1, h2, h3⟩ := writeZerosSlow_ok s l hok (by omega)
      rw [NullBackwardWriter.writeZerosSeq, if_pos h1]
      obtain ⟨g1, g2, g3⟩ := ih (s.writeZerosSlow l).2 h2 (by omega)
      exact ⟨g1, g2, by rw [g3, h3, List.sum_cons]; omega⟩
  · intro l hl
    rw [NullBackwardWriter.writeZerosSlow, if_neg (by simp [hok]),
      if_pos hl]
  · intro m r
    rw [NullBackwardWriter.pushSlow, if_neg (by simp [hok]),
      NullBackwardWriter.makeBuffer]
    have hp : s.syncBuffer.pos = s.pos := by
      simp [NullBackwardWriter.syncBuffer, NullBackwardWriter.pos]
    by_cases hm : kPositionMax - s.pos < m
    · rw [if_pos (by rw [hp]; exact hm)]
      simpa using hm
    · rw [if_neg (by rw [hp]; exact hm)]
      simpa using hm
  · intro m r hm
    rw [NullBackwardWriter.pushSlow, if_neg (by simp [hok]),
      NullBackwardWriter.makeBuffer]
    have hp : s.syncBuffer.pos = s.pos := by
      simp [NullBackwardWriter.syncBuffer, NullBackwardWriter.pos]
    rw [if_pos (by rw [hp]; exact hm)]
  · intro n hn
    rw [NullBackwardWriter.truncateImpl, if_neg (by simp [hok])]
    by_cases hsp : s.start_pos ≤ n
    · rw [if_pos hsp, if_neg (by omega)]
      refine ⟨rfl, ?_⟩
      simp only [NullBackwardWriter.pos]
      omega
    · rw [if_neg hsp]
      refine ⟨rfl, ?_⟩
      simp [NullBackwardWriter.pos]

/-- Witness for C7: from a fresh writer, writing 100 then 200 bytes succeeds
and reports position 300. -/
theorem C7_null_writer_accounting_witness :
    ((NullBackwardWriter.mk .ok 0 0 0).writeZerosSeq [100, 200]).1 = true
    ∧ ((NullBackwardWriter.mk .ok 0 0 0).writeZerosSeq [100, 200]).2.status
        = .ok
    ∧ ((NullBackwardWriter.mk .ok 0 0 0).writeZerosSeq [100, 200]).2.pos
        = (NullBackwardWriter.mk .ok 0 0 0).pos + [100, 200].sum :=
  (C7_null_writer_accounting (NullBackwardWriter.mk .ok 0 0 0) rfl).1
    [100, 200] (by decide)

/-- C10: `Truncate` on a healthy `NullBackwardWriter` with
`new_size > pos()` returns `false` without failing the stream: the state —
status, position and buffer window — is unchanged, and a subsequent in-range
write still succeeds. -/
theorem C10_truncate_beyond_pos (s : NullBackwardWriter) (n : Nat)
    (hok : s.status = .ok) (h : s.pos < n) :
    s.truncateImpl n = (false, s)
    ∧ (s.truncateImpl n).2.status = .ok
    ∧ ∀ l, l ≤ kPositionMax - s.pos →
        ((s.truncateImpl n).2.writeZerosSlow l).1 = true := by
  have he : s.truncateImpl n = (false, s) := by
    rw [NullBackwardWriter.truncateImpl, if_neg (by simp [hok]),
      if_pos (by simp only [NullBackwardWriter.pos] at h; omega),
      if_pos h]
  refine ⟨he, by rw [he]; exact hok, ?_⟩
  intro l hl
  rw [he]
  exact (writeZerosSlow_ok s l hok hl).1

/-- Witness for C10: truncating a fresh writer at position 5 to size 7 is a
benign failure; a following write of 3 bytes succeeds. -/
theorem C10_truncate_beyond_pos_witness :
    (NullBackwardWriter.mk .ok 5 0 0).truncateImpl 7
        = (false, NullBackwardWriter.mk .ok 5 0 0)
    ∧ ((NullBackwardWriter.mk .ok 5 0 0).truncateImpl 7).2.status = .ok
    ∧ ∀ l, l ≤ kPositionMax - (NullBackwardWriter.mk .ok 5 0 0).pos →
        (((NullBackwardWriter.mk .ok 5 0 0).truncateImpl 7).2.writeZerosSlow
          l).1 = true :=
  C10_truncate_beyond_pos (NullBackwardWriter.mk .ok 5 0 0) 7 rfl (by decide)

/-- C2: a buffer refill of the position-shifting decorator either fails with
overflow when `src.limit_pos() + base_pos` would exceed the maximum
representable position — leaving `limit_pos()` untouched, never wrapping — or
establishes the invariant `limit_pos() = src.limit_pos() + base_pos`. -/
theorem C2_makebuffer_limit_pos (d : PSReader) (src : InnerReader)
    (hbase : d.base_pos ≤ kPositionMax) :
    (kPositionMax < src.limit_pos + d.base_pos →
      (d.makeBuffer src).status = .overflow
      ∧ (d.makeBuffer src).limit_pos = d.limit_pos)
    ∧ (src.limit_pos + d.base_pos ≤ kPositionMax →
      (d.makeBuffer src).limit_pos = src.limit_pos + d.base_pos) := by
  constructor
  · intro h
    rw [PSReader.makeBuffer, if_pos (by omega)]
    exact ⟨rfl, rfl⟩
  · intro h
    rw [PSReader.makeBuffer, if_neg (by omega)]
    by_cases hok : src.isOk <;> simp [hok]

/-- Witness for C2: with base position 100, refilling from an inner reader at
`limit_pos = 10` yields `limit_pos = 110`; from an inner reader at the maximal
position it fails with overflow without touching `limit_pos`. -/
theorem C2_makebuffer_limit_pos_witness :
    ((PSReader.mk 100 0 0 0 .ok).makeBuffer
        (InnerReader.mk 10 0 10 true)).limit_pos = 10 + 100
    ∧ ((PSReader.mk 100 7 0 0 .ok).makeBuffer
        (InnerReader.mk 0 0 kPositionMax true)).status = .overflow
    ∧ ((PSReader.mk 100 7 0 0 .ok).makeBuffer
        (InnerReader.mk 0 0 kPositionMax true)).limit_pos = 7 :=
  ⟨(C2_makebuffer_limit_pos (PSReader.mk 100 0 0 0 .ok)
      (InnerReader.mk 10 0 10 true) (by decide)).2 (by decide),
   (C2_makebuffer_limit_pos (PSReader.mk 100 7 0 0 .ok)
      (InnerReader.mk 0 0 kPositionMax true) (by decide)).1 (by decide) |>.1,
   (C2_makebuffer_limit_pos (PSReader.mk 100 7 0 0 .ok)
      (InnerReader.mk 0 0 kPositionMax true) (by decide)).1 (by decide) |>.2⟩

/-- C3: seeking the position-shifting decorator to `p < base_pos` fails with
the distinct underflow condition without touching the inner reader (the
decorator and the inner reader are both unchanged, so the failure is fatal to
that attempt only and the stream stays usable); seeking to exactly `base_pos`
succeeds, aligns with the inner reader's start and leaves the decorator at
position `base_pos`; in general `p ≥ base_pos` translates to
`inner.Seek(p − base_pos)`. -/
theorem C3_seek_underflow_and_base (d : PSReader) (src : InnerReader)
    (hok : d.status = .ok) (hsrc : src.isOk = true) :
    (∀ p, p < d.base_pos → d.seekSlow src p = (false, d, src))
    ∧ ((d.seekSlow src d.base_pos).1 = true
      ∧ (d.seekSlow src d.base_pos).2.1.status = .ok
      ∧ (d.seekSlow src d.base_pos).2.1.pos = d.base_pos
      ∧ (d.seekSlow src d.base_pos).2.2.cursor_pos = 0)
    ∧ (∀ p, d.base_pos ≤ p →
      (d.seekSlow src p).2.2 = ((d.syncBuffer src).seek (p - d.base_pos)).2) := by
  refine ⟨?_, ?_, ?_⟩
  · intro p hp
    rw [PSReader.seekSlow, if_neg (by simp [hok]), if_pos hp]
  · rw [PSReader.seekSlow, if_neg (by simp [hok]),
      if_neg (by omega : ¬ d.base_pos < d.base_pos)]
    simp only [Nat.sub_self, PSReader.syncBuffer, InnerReader.seek,
      if_pos (Nat.zero_le src.size)]
    simp only [PSReader.makeBuffer]
    rw [if_neg (by omega)]
    simp [hok, hsrc, PSReader.pos, PSReader.available]
  · intro p hp
    rw [PSReader.seekSlow, if_neg (by simp [hok]), if_neg (by omega)]

/-- Witness for C3 at base 100 over 10 bytes of content: `Seek(99)` fails
leaving decorator and inner reader unchanged; `Seek(100)` succeeds at
position 100 with the inner reader at its start. -/
theorem C3_seek_underflow_and_base_witness :
    (PSReader.mk 100 100 0 0 .ok).seekSlow (InnerReader.mk 10 0 0 true) 99
        = (false, PSReader.mk 100 100 0 0 .ok, InnerReader.mk 10 0 0 true)
    ∧ ((PSReader.mk 100 100 0 0 .ok).seekSlow
        (InnerReader.mk 10 0 0 true) 100).1 = true
    ∧ ((PSReader.mk 100 100 0 0 .ok).seekSlow
        (InnerReader.mk 10 0 0 true) 100).2.1.pos = 100 :=
  ⟨(C3_seek_underflow_and_base (PSReader.mk 100 100 0 0 .ok)
      (InnerReader.mk 10 0 0 true) rfl rfl).1 99 (by decide),
   (C3_seek_underflow_and_base (PSReader.mk 100 100 0 0 .ok)
      (InnerReader.mk 10 0 0 true) rfl rfl).2.1.1,
   (C3_seek_underflow_and_base (PSReader.mk 100 100 0 0 .ok)
      (InnerReader.mk 10 0 0 true) rfl rfl).2.1.2.2.1⟩

/-- C8: once a stream's status is failed, every subsequent data-moving call —
`PushSlow`, `WriteSlow`, `WriteZerosSlow`, `TruncateImpl` on the null backward
writer, `SyncImpl` on the position-shifting reader — returns `false` as a
no-op: the state, including the original failure status and the position, is
unchanged and the inner reader is untouched. -/
theorem C8_failed_is_noop (s : NullBackwardWriter) (d : PSReader)
    (src : InnerReader) (hs : s.status ≠ .ok) (hd : d.status ≠ .ok) :
    (∀ m r, s.pushSlow m r = (false, s))
    ∧ (∀ n, s.writeSlow n = (false, s))
    ∧ (∀ l, s.writeZerosSlow l = (false, s))
    ∧ (∀ n, s.truncateImpl n = (false, s))
    ∧ (∀ t o, d.syncImpl src t o = (false, d, src)) := by
  refine ⟨?_, ?_, ?_, ?_, ?_⟩
  · intro m r
    rw [NullBackwardWriter.pushSlow, if_pos hs]
  · intro n
    rw [NullBackwardWriter.writeSlow, if_pos hs]
  · intro l
    rw [NullBackwardWriter.writeZerosSlow, if_pos hs]
  · intro n
    rw [NullBackwardWriter.truncateImpl, if_pos hs]
  · intro t o
    rw [PSReader.syncImpl, if_pos hd]

/-- Witness for C8 at concretely failed streams: the writer keeps its
distinct original status `otherFailure 42` and the reader is untouched. -/
theorem C8_failed_is_noop_witness :
    (NullBackwardWriter.mk (.otherFailure 42) 5 0 0).writeZerosSlow 9
        = (false, NullBackwardWriter.mk (.otherFailure 42) 5 0 0)
    ∧ (NullBackwardWriter.mk (.otherFailure 42) 5 0 0).truncateImpl 3
        = (false, NullBackwardWriter.mk (.otherFailure 42) 5 0 0)
    ∧ (PSReader.mk 100 7 0 0 .fromSrc).syncImpl (InnerReader.mk 10 0 0 true)
        .fromProcess false
        = (false, PSReader.mk 100 7 0 0 .fromSrc, InnerReader.mk 10 0 0 true) :=
  ⟨(C8_failed_is_noop (NullBackwardWriter.mk (.otherFailure 42) 5 0 0)
      (PSReader.mk 100 7 0 0 .fromSrc) (InnerReader.mk 10 0 0 true)
      (by decide) (by decide)).2.2.1 9,
   (C8_failed_is_noop (NullBackwardWriter.mk (.otherFailure 42) 5 0 0)
      (PSReader.mk 100 7 0 0 .fromSrc) (InnerReader.mk 10 0 0 true)
      (by decide) (by decide)).2.2.2.1 3,
   (C8_failed_is_noop (NullBackwardWriter.mk (.otherFailure 42) 5 0 0)
      (PSReader.mk 100 7 0 0 .fromSrc) (InnerReader.mk 10 0 0 true)
      (by decide) (by decide)).2.2.2.2 .fromProcess false⟩

end Riegeli
